import Mathlib

/-!
Verification development for the `info` crate: a library that collects
build-environment metadata (cargo package version, git revision, rustc
version, target triple, cargo profile, runtime OS descriptor), validates
the version-like fields through semantic-version parsing, and renders the
whole collection as a single line of text.

The definitions below are a shallow embedding of `src/lib.rs` together
with the narrow contracts of its external collaborators (the `semver`
parser/printer, the `git_version!` fallback, `os_info::get`,
`rustc_version::version`).  Machine strings are Lean `String`s, u64
arithmetic is `Nat` with an explicit `< 2 ^ 64` bound where the source
checks for overflow, and every fallible or panicking operation returns an
`Option` or `Except` value.
-/

namespace InfoCrate

/-! ## Decimal digits

Helpers embedding the decimal formatting and scanning of `u64` used by the
`semver` crate (`numeric_identifier` in its parser and the `Display`
rendering of version numbers). -/

/-- Map a decimal digit character to its value, `none` for any other
character.  Embeds `u8::is_ascii_digit` plus the `digit - b'0'`
conversion of the semver parser. -/
def toDigit? (c : Char) : Option Nat :=
  if c = '0' then some 0
  else if c = '1' then some 1
  else if c = '2' then some 2
  else if c = '3' then some 3
  else if c = '4' then some 4
  else if c = '5' then some 5
  else if c = '6' then some 6
  else if c = '7' then some 7
  else if c = '8' then some 8
  else if c = '9' then some 9
  else none

/-- Whether a character is an ASCII decimal digit. -/
def isDigitC (c : Char) : Bool :=
  (toDigit? c).isSome

/-- Value of a digit character, defaulting to `0` on non-digits. -/
def digitVal (c : Char) : Nat :=
  (toDigit? c).getD 0

/-- The decimal digit character for a value below ten. -/
def charOfDigit (d : Nat) : Char :=
  if d = 0 then '0'
  else if d = 1 then '1'
  else if d = 2 then '2'
  else if d = 3 then '3'
  else if d = 4 then '4'
  else if d = 5 then '5'
  else if d = 6 then '6'
  else if d = 7 then '7'
  else if d = 8 then '8'
  else if d = 9 then '9'
  else '*'

/-- One step of decimal accumulation: `acc * 10 + digit`, as in the
numeric-identifier loop of the semver parser. -/
def valStep (a : Nat) (c : Char) : Nat :=
  10 * a + digitVal c

/-- Numeric value of a list of decimal digit characters (most significant
first). -/
def charsVal (ds : List Char) : Nat :=
  ds.foldl valStep 0

/-- Fuelled decimal rendering of a natural number, least fuel `n + 1`.
Embeds the decimal `Display` of `u64` (the structural-recursion fuel is a
Lean artefact only). -/
def natToCharsAux : Nat → Nat → List Char
  | 0, _ => []
  | fuel + 1, n =>
    if n < 10 then [charOfDigit n]
    else natToCharsAux fuel (n / 10) ++ [charOfDigit (n % 10)]

/-- Decimal rendering of a natural number, most significant digit
first. -/
def natToChars (n : Nat) : List Char :=
  natToCharsAux (n + 1) n

/-! ## Semantic versions

Embedding of `semver::Version`: the structured value, its parser
(`Version::parse`, the grammar of the semver crate) and its
`Display` rendering.  `Info::new` calls the parser through
`str::parse::<semver::Version>` and panics on error, which the embedding
surfaces as `Option`. -/

/-- Structured semantic version: `major.minor.patch` plus optional
pre-release and build-metadata strings (empty string = absent), exactly
the fields of `semver::Version`. -/
structure Version where
  major : Nat
  minor : Nat
  patch : Nat
  pre : String
  build : String
deriving DecidableEq, Repr

/-- Scan a numeric identifier from the front of the input: one or more
decimal digits, no leading zero, value below `2 ^ 64` (the u64 overflow
check of the source).  Returns the value and the unconsumed input. -/
def numericIdentifier (s : List Char) : Option (Nat × List Char) :=
  let ds := s.takeWhile isDigitC
  let rest := s.dropWhile isDigitC
  if ds = [] then none
  else if ds.head? = some '0' ∧ 1 < ds.length then none
  else if charsVal ds < 2 ^ 64 then some (charsVal ds, rest)
  else none

/-- Whether a character may occur in a pre-release or build identifier:
ASCII alphanumeric or hyphen. -/
def isIdentChar (c : Char) : Bool :=
  isDigitC c || decide ('A' ≤ c ∧ c ≤ 'Z') || decide ('a' ≤ c ∧ c ≤ 'z')
    || decide (c = '-')

/-- A pre-release segment that is all digits, longer than one character
and starting with `0` is rejected by the semver grammar. -/
def segLeadingZero (seg : List Char) : Bool :=
  seg.all isDigitC && decide (seg.head? = some '0') && decide (1 < seg.length)

/-- Scan the dot-separated pre-release identifiers after `-`: each
segment is a nonempty run of identifier characters, numeric segments may
not have leading zeros.  Returns the consumed characters (dots included)
and the unconsumed input.  Fuel is a Lean artefact; `input length + 1`
always suffices. -/
def preIdents : Nat → List Char → Option (List Char × List Char)
  | 0, _ => none
  | fuel + 1, s =>
    let seg := s.takeWhile isIdentChar
    let rest := s.dropWhile isIdentChar
    if seg = [] then none
    else if segLeadingZero seg then none
    else
      match rest with
      | [] => some (seg, [])
      | ch :: rest2 =>
        if ch = '.' then
          match preIdents fuel rest2 with
          | some (ids, rest3) => some (seg ++ '.' :: ids, rest3)
          | none => none
        else some (seg, ch :: rest2)

/-- Scan the dot-separated build-metadata identifiers after `+`: like
`preIdents` but numeric segments may have leading zeros. -/
def buildIdents : Nat → List Char → Option (List Char × List Char)
  | 0, _ => none
  | fuel + 1, s =>
    let seg := s.takeWhile isIdentChar
    let rest := s.dropWhile isIdentChar
    if seg = [] then none
    else
      match rest with
      | [] => some (seg, [])
      | ch :: rest2 =>
        if ch = '.' then
          match buildIdents fuel rest2 with
          | some (ids, rest3) => some (seg ++ '.' :: ids, rest3)
          | none => none
        else some (seg, ch :: rest2)

/-- Parse the optional build-metadata part (the input after `+`): the
identifiers must consume the entire remaining input. -/
def parseBuild (major minor patch : Nat) (preStr : String) (r : List Char) :
    Option Version :=
  match buildIdents (r.length + 1) r with
  | none => none
  | some (build, r2) =>
    if r2 = [] then some ⟨major, minor, patch, preStr, build.asString⟩ else none

/-- Parse the input remaining after `major.minor.patch`: nothing, or
`-pre`, optionally followed by `+build`. -/
def parseTail (major minor patch : Nat) (r : List Char) : Option Version :=
  match r with
  | [] => some ⟨major, minor, patch, "", ""⟩
  | ch :: r2 =>
    if ch = '-' then
      match preIdents (r2.length + 1) r2 with
      | none => none
      | some (pre, r3) =>
        match r3 with
        | [] => some ⟨major, minor, patch, pre.asString, ""⟩
        | ch2 :: r4 =>
          if ch2 = '+' then parseBuild major minor patch pre.asString r4
          else none
    else if ch = '+' then parseBuild major minor patch "" r2
    else none

/-- The semver grammar on character lists:
`major . minor . patch [- pre] [+ build]`, whole input consumed. -/
def parseVersionChars (s : List Char) : Option Version :=
  if s = [] then none
  else
    match numericIdentifier s with
    | none => none
    | some (major, r1) =>
      match r1 with
      | [] => none
      | ch :: r2 =>
        if ch = '.' then
          match numericIdentifier r2 with
          | none => none
          | some (minor, r3) =>
            match r3 with
            | [] => none
            | ch2 :: r4 =>
              if ch2 = '.' then
                match numericIdentifier r4 with
                | none => none
                | some (patch, r5) => parseTail major minor patch r5
              else none
        else none

/-- Embedding of `semver::Version::parse` (reached in the source through
`str::parse`). -/
def Version.parse (s : String) : Option Version :=
  parseVersionChars s.data

/-- Character-level rendering of a version, mirroring the semver `Display` impl:
`major.minor.patch`, then `-pre` when the pre-release is nonempty, then
`+build` when the build metadata is nonempty. -/
def Version.renderChars (v : Version) : List Char :=
  natToChars v.major ++ '.' :: natToChars v.minor ++ '.' :: natToChars v.patch
    ++ (if v.pre = "" then [] else '-' :: v.pre.data)
    ++ (if v.build = "" then [] else '+' :: v.build.data)

/-- Embedding of `impl Display for semver::Version`. -/
def Version.render (v : Version) : String :=
  v.renderChars.asString

/-! ## The data model of `src/lib.rs` -/

/-- Modelled from the spec: the OS-identification collaborator
(`os_info::get`, a dependency whose code is not part of this repository)
returns a structured OS descriptor — name, family, version, bitness —
with its own textual rendering.  The exact content of the rendering is
the business of the collaborator; only that it exists matters here. -/
structure OsInfo where
  name : String
  family : String
  version : String
  bitness : String
deriving DecidableEq, Repr

/-- Modelled from the spec: the display form of the OS descriptor (the
`Display` impl of `os_info::Info`). -/
def OsInfo.render (o : OsInfo) : String :=
  o.name ++ " " ++ o.version ++ " " ++ o.bitness

/-- Embedding of `struct RawInfo` (src/lib.rs lines 40-53): the
unvalidated compile-time snapshot, five plain strings. -/
structure RawInfo where
  cargo_pkg_version : String
  git_version : String
  rustc_version : String
  target : String
  profile : String
deriving DecidableEq, Repr

/-- Embedding of `struct Info` (src/lib.rs lines 56-71): the validated
aggregate.  `Cow` strings become plain strings; derived `PartialEq`,
`Eq` and `Hash` make equality structural, matched by `DecidableEq`
here. -/
structure Info where
  cargo_pkg_version : Version
  git_version : String
  rustc_version : Version
  os : OsInfo
  target : String
  profile : String
deriving DecidableEq, Repr

/-- Which of the two version-like fields a parse failure is about.  A
panic in `Info::new` happens at one of two distinct `unwrap` sites, one
per field, so the failing field is determined by the failure point. -/
inductive VersionField
  | cargoPkgVersion
  | rustcVersion
deriving DecidableEq, Repr

/-- The runtime failure of `Info::new`: a version-like field does not
parse as semver.  The embedding of the panic carries the failing field
(determined by which `unwrap` fired) and the offending text (the value
being parsed at that site). -/
inductive InfoError
  | malformedVersion (fld : VersionField) (text : String)
deriving DecidableEq, Repr

/-- Embedding of `Info::new` (src/lib.rs lines 88-97), instrumented with
the evaluation order of its struct literal: `cargo_pkg_version` is
parsed first, then `rustc_version`, and only then is `os_info::get()`
invoked (Rust evaluates struct-literal fields in source order).  The
OS query is passed as a thunk and the returned flag records whether it
was forced. -/
def Info.newInstrumented (raw : RawInfo) (osQuery : Unit → OsInfo) :
    Except InfoError Info × Bool :=
  match Version.parse raw.cargo_pkg_version with
  | none =>
    (.error (.malformedVersion .cargoPkgVersion raw.cargo_pkg_version), false)
  | some v1 =>
    match Version.parse raw.rustc_version with
    | none =>
      (.error (.malformedVersion .rustcVersion raw.rustc_version), false)
    | some v2 =>
      let os := osQuery ()
      (.ok { cargo_pkg_version := v1, git_version := raw.git_version,
             rustc_version := v2, os := os, target := raw.target,
             profile := raw.profile }, true)

/-- Embedding of `Info::new`: the result alone, for a given OS
descriptor. -/
def Info.new (raw : RawInfo) (os : OsInfo) : Except InfoError Info :=
  (Info.newInstrumented raw (fun _ => os)).1

/-- Embedding of `impl Display for Info` (src/lib.rs lines 100-114): the
format string
`"{cargo_pkg_version} {git_version} {target} {profile} rustc-{rustc_version} {os}"`. -/
def Info.render (i : Info) : String :=
  i.cargo_pkg_version.render ++ " " ++ i.git_version ++ " " ++ i.target
    ++ " " ++ i.profile ++ " rustc-" ++ i.rustc_version.render ++ " "
    ++ i.os.render

/-! ## The `raw_info!` macro -/

/-- Embedding of the `raw_info!` macro expansion (src/lib.rs lines
121-131) given its compile-time inputs: the `CARGO_PKG_VERSION` value,
the result of the `git_version!` lookup (`none` when no revision can be
determined, in which case the `fallback = "unknown"` of the macro applies),
and the three `INFO_*` constants. -/
def raw_info (cargoPkgVersion : String) (gitLookup : Option String)
    (rustcVersion target profile : String) : RawInfo :=
  { cargo_pkg_version := cargoPkgVersion,
    git_version := gitLookup.getD "unknown",
    rustc_version := rustcVersion,
    target := target,
    profile := profile }

/-! ## The build script -/

/-- A cargo build-script directive printed by `build_script`: either a
`cargo::rustc-env=NAME=VALUE` line (a named compile-time constant for
the consumer crate) or a `cargo::rerun-if-changed=PATH` line. -/
inductive Directive
  | rustcEnv (name value : String)
  | rerunIfChanged (path : String)
deriving DecidableEq, Repr

/-- Whether a directive defines a compile-time constant. -/
def Directive.isRustcEnv : Directive → Bool
  | .rustcEnv _ _ => true
  | .rerunIfChanged _ => false

/-- The build-time failure of `build_script`: the compiler-version
collaborator failed, or a build-tool-guaranteed environment variable is
absent.  Each is an `unwrap` panic in the source at a distinct site; the
embedding carries the name read at the site that fired. -/
inductive BuildScriptError
  | compilerVersionUnknown
  | missingEnvVar (name : String)
deriving DecidableEq, Repr

/-- Embedding of `build_script` (src/lib.rs lines 150-161).  Inputs: the
result of the `rustc_version::version()` collaborator (`none` = failure)
and the build environment as a partial map.  Output: the list of
directives printed, in print order, or the failure.  The source unwraps
the compiler version first, then `TARGET`, then `PROFILE`. -/
def build_script (rustcVersionResult : Option Version)
    (env : String → Option String) : Except BuildScriptError (List Directive) :=
  match rustcVersionResult with
  | none => .error .compilerVersionUnknown
  | some rv =>
    match env "TARGET" with
    | none => .error (.missingEnvVar "TARGET")
    | some target =>
      match env "PROFILE" with
      | none => .error (.missingEnvVar "PROFILE")
      | some profile =>
        .ok [Directive.rustcEnv "INFO_RUSTC_VERSION" rv.render,
             Directive.rustcEnv "INFO_TARGET" target,
             Directive.rustcEnv "INFO_PROFILE" profile,
             Directive.rerunIfChanged "build.rs"]

/-- Look a name up among the `rustc-env` directives of a directive list
(first match wins). -/
def lookupRustcEnv (ds : List Directive) (name : String) : Option String :=
  match ds with
  | [] => none
  | Directive.rustcEnv n v :: rest =>
    if n = name then some v else lookupRustcEnv rest name
  | Directive.rerunIfChanged _ :: rest => lookupRustcEnv rest name

/-- The compile-time environment the consumer crate is built in: the
base environment (the own variables of cargo, such as `CARGO_PKG_VERSION`)
overridden by the `rustc-env` directives the build script emitted. -/
def buildEnvAfter (base : String → Option String) (ds : List Directive)
    (name : String) : Option String :=
  match lookupRustcEnv ds name with
  | some v => some v
  | none => base name

/-- Embedding of the four `env!` reads of the `raw_info!` macro: each
fails at compile time when its variable is absent, so the expansion as a
whole is `none` unless `CARGO_PKG_VERSION`, `INFO_RUSTC_VERSION`,
`INFO_TARGET` and `INFO_PROFILE` are all present. -/
def raw_info_from_env (cenv : String → Option String)
    (gitLookup : Option String) : Option RawInfo :=
  match cenv "CARGO_PKG_VERSION", cenv "INFO_RUSTC_VERSION",
      cenv "INFO_TARGET", cenv "INFO_PROFILE" with
  | some c, some r, some t, some p => some (raw_info c gitLookup r t p)
  | _, _, _, _ => none

/-! ## The structured interchange format

Embedding of the `serde` feature: `#[derive(serde::Serialize,
serde::Deserialize)]` on `Info` serializes the struct as a record of its
six fields in declaration order.  `semver::Version` serializes as its
`Display` string and deserializes through `Version::parse`; the OS
descriptor, an external collaborator, serializes as a record of its
fields (modelled from the spec, which fixes only that the format is a
structured record). -/

/-- A structured interchange value: strings and records. -/
inductive JValue
  | str (s : String)
  | obj (fields : List (String × JValue))

/-- Serialization of the OS descriptor. -/
def OsInfo.serialize (o : OsInfo) : JValue :=
  .obj [("name", .str o.name), ("family", .str o.family),
        ("version", .str o.version), ("bitness", .str o.bitness)]

/-- Deserialization of the OS descriptor. -/
def OsInfo.deserialize (v : JValue) : Option OsInfo :=
  match v with
  | .obj [("name", .str n), ("family", .str f), ("version", .str ver),
          ("bitness", .str b)] => some ⟨n, f, ver, b⟩
  | _ => none

/-- Serialization of `Info`: fields in declaration order, version fields
as their `Display` strings (the serde behaviour of `semver::Version`). -/
def Info.serialize (i : Info) : JValue :=
  .obj [("cargo_pkg_version", .str i.cargo_pkg_version.render),
        ("git_version", .str i.git_version),
        ("rustc_version", .str i.rustc_version.render),
        ("os", i.os.serialize),
        ("target", .str i.target),
        ("profile", .str i.profile)]

/-- Deserialization of `Info`: the version strings go back through the
semver parser (the serde behaviour of `semver::Version`). -/
def Info.deserialize (v : JValue) : Option Info :=
  match v with
  | .obj [("cargo_pkg_version", .str c), ("git_version", .str g),
          ("rustc_version", .str r), ("os", osv),
          ("target", .str t), ("profile", .str p)] =>
    (match Version.parse c, Version.parse r, OsInfo.deserialize osv with
     | some v1, some v2, some os => some ⟨v1, g, v2, os, t, p⟩
     | _, _, _ => none)
  | _ => none

/-! ## The public runtime operations on an existing `Info`

The runtime interface of the library on an already-constructed `Info` is the
`Display` impl and the derived `Clone`, `PartialEq`/`Eq`, `Hash` and
(under the serde feature) `Serialize` impls — every one an `&self`
receiver in the source.  To make the absence of mutation a statement
rather than a typing convention, each operation is modelled with explicit
state passing: it returns the receiver as it stands after the call,
together with its output. -/

/-- An invocation of a public library operation on an `Info` value.  The
`eqCheck` payload is the other operand of `==`. -/
inductive InfoOp
  | display
  | cloneOp
  | eqCheck (other : Info)
  | serializeOp
deriving Repr

/-- The output of a public library operation. -/
inductive InfoOutput
  | text (s : String)
  | copy (i : Info)
  | truth (b : Bool)
  | record (v : JValue)

/-- Run one public library operation on an `Info`, returning the
receiver after the call and the output of the operation.  All source
receivers are immutable borrows, so the receiver comes back as it
went in. -/
def Info.applyOp : InfoOp → Info → Info × InfoOutput
  | .display, i => (i, .text i.render)
  | .cloneOp, i => (i, .copy i)
  | .eqCheck j, i => (i, .truth (decide (i = j)))
  | .serializeOp, i => (i, .record i.serialize)

/-! ## Theorems -/

/-- Folding a leading space into a string literal, used to relate the
left-associated renderings to their space-separated readings. -/
theorem append_space_unknown (x : String) :
    ((x ++ " ") ++ "unknown") ++ " " = x ++ " unknown " := by
  rw [String.append_assoc, String.append_assoc,
    ← String.append_assoc " " "unknown" " ",
    show (" " : String) ++ "unknown" ++ " " = " unknown " by decide]

/-- Splitting the `" rustc-"` fragment of the display format string into
a separator and the `rustc-` literal. -/
theorem append_space_rustc (x y : String) :
    (x ++ " ") ++ ("rustc-" ++ y) = (x ++ " rustc-") ++ y := by
  rw [String.append_assoc x " " ("rustc-" ++ y),
    ← String.append_assoc " " "rustc-" y,
    show (" " : String) ++ "rustc-" = " rustc-" by decide,
    ← String.append_assoc x " rustc-" y]

/-- Helper shared by several results: on a snapshot whose two version
texts parse, `Info::new` yields exactly the record of the parsed
versions and the passed-through strings. -/
theorem info_new_eq_of_parse (raw : RawInfo) (os : OsInfo) (v1 v2 : Version)
    (h1 : Version.parse raw.cargo_pkg_version = some v1)
    (h2 : Version.parse raw.rustc_version = some v2) :
    Info.new raw os =
      .ok ⟨v1, raw.git_version, v2, os, raw.target, raw.profile⟩ := by
  unfold Info.new Info.newInstrumented
  rw [h1, h2]

/-- C1: for every `RawInfo` whose `cargo_pkg_version` and
`rustc_version` texts are valid semantic versions, `Info::new` succeeds,
its version fields are the parsed versions of the two inputs, and
`git_version`, `target` and `profile` are the input texts unchanged. -/
theorem info_new_valid (raw : RawInfo) (os : OsInfo) (v1 v2 : Version)
    (h1 : Version.parse raw.cargo_pkg_version = some v1)
    (h2 : Version.parse raw.rustc_version = some v2) :
    Info.new raw os =
      .ok ⟨v1, raw.git_version, v2, os, raw.target, raw.profile⟩ :=
  info_new_eq_of_parse raw os v1 v2 h1 h2

theorem info_new_valid_witness :
    Version.parse "1.2.3" = some ⟨1, 2, 3, "", ""⟩ ∧
    Version.parse "1.80.0" = some ⟨1, 80, 0, "", ""⟩ ∧
    Info.new ⟨"1.2.3", "abcd123", "1.80.0", "x86_64-pc-linux", "release"⟩
        ⟨"Ubuntu", "linux", "24.04", "64-bit"⟩ =
      .ok ⟨⟨1, 2, 3, "", ""⟩, "abcd123", ⟨1, 80, 0, "", ""⟩,
           ⟨"Ubuntu", "linux", "24.04", "64-bit"⟩, "x86_64-pc-linux",
           "release"⟩ :=
  ⟨by decide, by decide,
   info_new_valid _ _ _ _ (by decide) (by decide)⟩

/-- C3: for every `RawInfo` in which `cargo_pkg_version` or
`rustc_version` is not a valid semantic version, `Info::new` fails with
a malformed-version condition that carries a field that did fail to
parse together with the offending text of that field. -/
theorem info_new_malformed (raw : RawInfo) (os : OsInfo)
    (h : Version.parse raw.cargo_pkg_version = none ∨
         Version.parse raw.rustc_version = none) :
    ∃ fld text, Info.new raw os = .error (.malformedVersion fld text) ∧
      Version.parse text = none ∧
      ((fld = VersionField.cargoPkgVersion ∧ text = raw.cargo_pkg_version) ∨
       (fld = VersionField.rustcVersion ∧ text = raw.rustc_version)) := by
  unfold Info.new Info.newInstrumented
  cases hc : Version.parse raw.cargo_pkg_version with
  | none => exact ⟨_, _, rfl, hc, Or.inl ⟨rfl, rfl⟩⟩
  | some v1 =>
    cases hr : Version.parse raw.rustc_version with
    | none => exact ⟨_, _, rfl, hr, Or.inr ⟨rfl, rfl⟩⟩
    | some v2 =>
      rcases h with h | h
      · exact absurd hc (by rw [h]; exact fun hx => Option.noConfusion hx)
      · exact absurd hr (by rw [h]; exact fun hx => Option.noConfusion hx)

theorem info_new_malformed_witness :
    Version.parse "abc" = none ∧ Version.parse "" = none ∧
    Version.parse "1.2" = none ∧
    (∃ fld text,
      Info.new ⟨"abc", "deadbeef", "1.80.0", "t64", "release"⟩
          ⟨"Ubuntu", "linux", "24.04", "64-bit"⟩ =
        .error (.malformedVersion fld text) ∧
      Version.parse text = none ∧
      ((fld = VersionField.cargoPkgVersion ∧ text = "abc") ∨
       (fld = VersionField.rustcVersion ∧ text = "1.80.0"))) :=
  ⟨by decide, by decide, by decide,
   info_new_malformed ⟨"abc", "deadbeef", "1.80.0", "t64", "release"⟩ _
     (Or.inl (by decide))⟩

/-- C2: the `Display` rendering of every `Info` is the single line made
of the package version, the revision, the target, the profile,
`rustc-` followed by the compiler version, and the OS-descriptor
rendering, in that order and separated by single spaces; and the
example raw snapshot of the spec renders as
`"1.2.3 abcd123 x86_64-pc-linux release rustc-1.80.0 "` followed by the
OS descriptor string. -/
theorem info_display_line :
    (∀ i : Info, Info.render i =
      String.intercalate " "
        [i.cargo_pkg_version.render, i.git_version, i.target, i.profile,
         "rustc-" ++ i.rustc_version.render, i.os.render]) ∧
    (∀ os : OsInfo,
      (Info.new ⟨"1.2.3", "abcd123", "1.80.0", "x86_64-pc-linux",
          "release"⟩ os).map Info.render =
        .ok ("1.2.3 abcd123 x86_64-pc-linux release rustc-1.80.0 "
          ++ os.render)) := by
  constructor
  · intro i
    show Info.render i =
      ((((i.cargo_pkg_version.render ++ " " ++ i.git_version) ++ " "
        ++ i.target) ++ " " ++ i.profile) ++ " "
        ++ ("rustc-" ++ i.rustc_version.render)) ++ " " ++ i.os.render
    unfold Info.render
    rw [append_space_rustc]
  · intro os
    rw [info_new_eq_of_parse
      ⟨"1.2.3", "abcd123", "1.80.0", "x86_64-pc-linux", "release"⟩ os
      ⟨1, 2, 3, "", ""⟩ ⟨1, 80, 0, "", ""⟩ (by decide) (by decide)]
    exact congrArg (fun s => Except.ok (s ++ OsInfo.render os))
      (show Version.render ⟨1, 2, 3, "", ""⟩ ++ " " ++ "abcd123" ++ " "
          ++ "x86_64-pc-linux" ++ " " ++ "release" ++ " rustc-"
          ++ Version.render ⟨1, 80, 0, "", ""⟩ ++ " "
        = "1.2.3 abcd123 x86_64-pc-linux release rustc-1.80.0 " by decide)

/-- C8: the public runtime operations of the library on an existing `Info` —
display, clone, equality, serialization, all `&self` receivers in the
source — leave the receiver exactly as it was: no operation of the
library changes any field of an `Info` after `Info::new` returns it. -/
theorem info_ops_immutable (op : InfoOp) (i : Info) :
    (Info.applyOp op i).1 = i := by
  cases op <;> rfl

/-- C10: `Info::new` evaluates both semantic-version parses before the
OS-identification collaborator is invoked, so on every `RawInfo` with a
malformed `cargo_pkg_version` or `rustc_version` it fails without the
OS query ever being forced. -/
theorem info_new_no_os_query (raw : RawInfo) (osQuery : Unit → OsInfo)
    (h : Version.parse raw.cargo_pkg_version = none ∨
         Version.parse raw.rustc_version = none) :
    (Info.newInstrumented raw osQuery).2 = false ∧
      ∃ e, (Info.newInstrumented raw osQuery).1 = .error e := by
  unfold Info.newInstrumented
  cases hc : Version.parse raw.cargo_pkg_version with
  | none => exact ⟨rfl, _, rfl⟩
  | some v1 =>
    cases hr : Version.parse raw.rustc_version with
    | none => exact ⟨rfl, _, rfl⟩
    | some v2 =>
      rcases h with h | h
      · exact absurd hc (by rw [h]; exact fun hx => Option.noConfusion hx)
      · exact absurd hr (by rw [h]; exact fun hx => Option.noConfusion hx)

theorem info_new_no_os_query_witness :
    (Version.parse "1.2" = none ∨ Version.parse "1.80.0" = none) ∧
    (Info.newInstrumented ⟨"1.2", "rev", "1.80.0", "t64", "debug"⟩
        (fun _ => ⟨"Ubuntu", "linux", "24.04", "64-bit"⟩)).2 = false ∧
    ∃ e, (Info.newInstrumented ⟨"1.2", "rev", "1.80.0", "t64", "debug"⟩
        (fun _ => ⟨"Ubuntu", "linux", "24.04", "64-bit"⟩)).1 = .error e :=
  ⟨Or.inl (by decide),
   info_new_no_os_query ⟨"1.2", "rev", "1.80.0", "t64", "debug"⟩ _
     (Or.inl (by decide))⟩

/-- C7: when the source-control lookup yields no revision, the
`raw_info!` expansion still produces a snapshot, its `git_version` field
is the literal `"unknown"`, and (whenever the two version texts are
valid) the resulting `Info` renders with that literal in the revision
position. -/
theorem raw_info_fallback (c r t p : String) (os : OsInfo) (v1 v2 : Version)
    (h1 : Version.parse c = some v1) (h2 : Version.parse r = some v2) :
    (raw_info c none r t p).git_version = "unknown" ∧
    ∃ i, Info.new (raw_info c none r t p) os = .ok i ∧
      i.git_version = "unknown" ∧
      Info.render i = v1.render ++ " unknown " ++ t ++ " " ++ p
        ++ " rustc-" ++ v2.render ++ " " ++ os.render := by
  refine ⟨rfl, ⟨v1, "unknown", v2, os, t, p⟩, ?_, rfl, ?_⟩
  · have h1' : Version.parse (raw_info c none r t p).cargo_pkg_version
        = some v1 := h1
    have h2' : Version.parse (raw_info c none r t p).rustc_version
        = some v2 := h2
    exact info_new_eq_of_parse (raw_info c none r t p) os v1 v2 h1' h2'
  · show ((((v1.render ++ " ") ++ "unknown") ++ " ") ++ t) ++ " " ++ p
      ++ " rustc-" ++ v2.render ++ " " ++ os.render = _
    rw [append_space_unknown]

theorem raw_info_fallback_witness :
    Version.parse "0.3.1" = some ⟨0, 3, 1, "", ""⟩ ∧
    Version.parse "1.80.0" = some ⟨1, 80, 0, "", ""⟩ ∧
    ((raw_info "0.3.1" none "1.80.0" "t64" "release").git_version
        = "unknown" ∧
      ∃ i, Info.new (raw_info "0.3.1" none "1.80.0" "t64" "release")
          ⟨"Ubuntu", "linux", "24.04", "64-bit"⟩ = .ok i ∧
        i.git_version = "unknown" ∧
        Info.render i = Version.render ⟨0, 3, 1, "", ""⟩ ++ " unknown "
          ++ "t64" ++ " " ++ "release" ++ " rustc-"
          ++ Version.render ⟨1, 80, 0, "", ""⟩ ++ " "
          ++ OsInfo.render ⟨"Ubuntu", "linux", "24.04", "64-bit"⟩) :=
  ⟨by decide, by decide,
   raw_info_fallback "0.3.1" "1.80.0" "t64" "release"
     ⟨"Ubuntu", "linux", "24.04", "64-bit"⟩ ⟨0, 3, 1, "", ""⟩
     ⟨1, 80, 0, "", ""⟩ (by decide) (by decide)⟩

/-- C4: `build_script` never emits its constants when the build-tool
supplied `TARGET` or `PROFILE` variable is absent — it aborts, and when
the compiler version was determined the abort names the missing
variable; when both are present (and the compiler version is
determined) it prints exactly three named compile-time constants —
compiler version text, target text, profile text — plus the
rerun-if-changed directive. -/
theorem build_script_contract :
    (∀ rvOpt env, ((env "TARGET" = none ∨ env "PROFILE" = none) →
        ∀ ds, build_script rvOpt env ≠ .ok ds)) ∧
    (∀ rv env, (env "TARGET" = none →
        build_script (some rv) env = .error (.missingEnvVar "TARGET"))) ∧
    (∀ rv env t, (env "TARGET" = some t → env "PROFILE" = none →
        build_script (some rv) env = .error (.missingEnvVar "PROFILE"))) ∧
    (∀ rv env t p, (env "TARGET" = some t → env "PROFILE" = some p →
        build_script (some rv) env =
          .ok [Directive.rustcEnv "INFO_RUSTC_VERSION" rv.render,
               Directive.rustcEnv "INFO_TARGET" t,
               Directive.rustcEnv "INFO_PROFILE" p,
               Directive.rerunIfChanged "build.rs"] ∧
        ∀ ds, build_script (some rv) env = .ok ds →
          ds.filter Directive.isRustcEnv =
            [Directive.rustcEnv "INFO_RUSTC_VERSION" rv.render,
             Directive.rustcEnv "INFO_TARGET" t,
             Directive.rustcEnv "INFO_PROFILE" p])) := by
  refine ⟨?_, ?_, ?_, ?_⟩
  · intro rvOpt env h ds hok
    cases rvOpt with
    | none => exact Except.noConfusion hok
    | some rv =>
      unfold build_script at hok
      rcases h with h | h
      · rw [h] at hok
        exact Except.noConfusion hok
      · cases ht : env "TARGET" with
        | none => rw [ht] at hok; exact Except.noConfusion hok
        | some t => rw [ht, h] at hok; exact Except.noConfusion hok
  · intro rv env h
    unfold build_script
    rw [h]
  · intro rv env t h1 h2
    unfold build_script
    rw [h1, h2]
  · intro rv env t p h1 h2
    have hok : build_script (some rv) env =
        .ok [Directive.rustcEnv "INFO_RUSTC_VERSION" rv.render,
             Directive.rustcEnv "INFO_TARGET" t,
             Directive.rustcEnv "INFO_PROFILE" p,
             Directive.rerunIfChanged "build.rs"] := by
      unfold build_script
      rw [h1, h2]
    refine ⟨hok, ?_⟩
    intro ds hds
    rw [hok] at hds
    cases hds
    rfl

theorem build_script_contract_witness :
    build_script (some ⟨1, 80, 0, "", ""⟩)
        (fun n => if n = "TARGET" then some "x86_64-pc-linux" else none) =
      .error (.missingEnvVar "PROFILE") ∧
    (build_script (some ⟨1, 80, 0, "", ""⟩)
        (fun n => if n = "TARGET" then some "x86_64-pc-linux"
          else if n = "PROFILE" then some "release" else none) =
      .ok [Directive.rustcEnv "INFO_RUSTC_VERSION"
             (Version.render ⟨1, 80, 0, "", ""⟩),
           Directive.rustcEnv "INFO_TARGET" "x86_64-pc-linux",
           Directive.rustcEnv "INFO_PROFILE" "release",
           Directive.rerunIfChanged "build.rs"] ∧
      ∀ ds, build_script (some ⟨1, 80, 0, "", ""⟩)
          (fun n => if n = "TARGET" then some "x86_64-pc-linux"
            else if n = "PROFILE" then some "release" else none) = .ok ds →
        ds.filter Directive.isRustcEnv =
          [Directive.rustcEnv "INFO_RUSTC_VERSION"
             (Version.render ⟨1, 80, 0, "", ""⟩),
           Directive.rustcEnv "INFO_TARGET" "x86_64-pc-linux",
           Directive.rustcEnv "INFO_PROFILE" "release"]) :=
  ⟨build_script_contract.2.2.1 ⟨1, 80, 0, "", ""⟩
     (fun n => if n = "TARGET" then some "x86_64-pc-linux" else none)
     "x86_64-pc-linux" (by decide) (by decide),
   build_script_contract.2.2.2 ⟨1, 80, 0, "", ""⟩
     (fun n => if n = "TARGET" then some "x86_64-pc-linux"
       else if n = "PROFILE" then some "release" else none)
     "x86_64-pc-linux" "release" (by decide) (by decide)⟩

/-- C9: the constant names `build_script` emits are exactly the names
the `raw_info!` macro reads, so in a compile-time environment formed by
applying the build-script directives to the base cargo environment, the
macro expands successfully and the snapshot fields `rustc_version`, `target`
and `profile` fields equal the values the build script emitted. -/
theorem build_constants_match (rv : Version) (env base : String → Option String)
    (t p c : String) (g : Option String) (ds : List Directive)
    (ht : env "TARGET" = some t) (hp : env "PROFILE" = some p)
    (hds : build_script (some rv) env = .ok ds)
    (hc : base "CARGO_PKG_VERSION" = some c) :
    raw_info_from_env (buildEnvAfter base ds) g =
      some ⟨c, g.getD "unknown", rv.render, t, p⟩ := by
  unfold build_script at hds
  rw [ht, hp] at hds
  cases hds
  have e1 : buildEnvAfter base
      [Directive.rustcEnv "INFO_RUSTC_VERSION" rv.render,
       Directive.rustcEnv "INFO_TARGET" t,
       Directive.rustcEnv "INFO_PROFILE" p,
       Directive.rerunIfChanged "build.rs"] "CARGO_PKG_VERSION"
      = base "CARGO_PKG_VERSION" := rfl
  unfold raw_info_from_env
  rw [e1, hc]
  rfl

theorem build_constants_match_witness :
    (fun n => if n = "TARGET" then some "t64"
      else if n = "PROFILE" then some "release" else none) "TARGET"
      = some "t64" ∧
    (fun n => if n = "CARGO_PKG_VERSION" then some "0.1.0" else none)
      "CARGO_PKG_VERSION" = some "0.1.0" ∧
    raw_info_from_env
      (buildEnvAfter
        (fun n => if n = "CARGO_PKG_VERSION" then some "0.1.0" else none)
        [Directive.rustcEnv "INFO_RUSTC_VERSION"
           (Version.render ⟨1, 80, 0, "", ""⟩),
         Directive.rustcEnv "INFO_TARGET" "t64",
         Directive.rustcEnv "INFO_PROFILE" "release",
         Directive.rerunIfChanged "build.rs"]) (some "abcd123") =
      some ⟨"0.1.0", "abcd123", Version.render ⟨1, 80, 0, "", ""⟩,
            "t64", "release"⟩ :=
  ⟨by decide, by decide,
   build_constants_match ⟨1, 80, 0, "", ""⟩
     (fun n => if n = "TARGET" then some "t64"
       else if n = "PROFILE" then some "release" else none)
     (fun n => if n = "CARGO_PKG_VERSION" then some "0.1.0" else none)
     "t64" "release" "0.1.0" (some "abcd123") _
     (by decide) (by decide) rfl (by decide)⟩

/-! ## Exactness of the semver parser

The round-trip property of the interchange format rests on the semver
strings being canonical: whenever `Version.parse s = some v`, the
`Display` rendering of `v` is exactly `s`.  The lemmas below establish
this, working up from the decimal digits. -/

lemma toDigit?_eq_some {c : Char} {k : Nat} (h : toDigit? c = some k) :
    k < 10 ∧ charOfDigit k = c := by
  unfold toDigit? at h
  split_ifs at h with h0 h1 h2 h3 h4 h5 h6 h7 h8 h9 <;>
    obtain rfl := Option.some.inj h <;> subst_vars <;>
    exact ⟨by omega, rfl⟩

lemma toDigit?_of_isDigitC {c : Char} (h : isDigitC c = true) :
    toDigit? c = some (digitVal c) := by
  unfold isDigitC at h
  cases hd : toDigit? c with
  | none => rw [hd] at h; exact absurd h (by decide)
  | some k => unfold digitVal; rw [hd]; rfl

lemma digitVal_lt_ten {c : Char} (h : isDigitC c = true) : digitVal c < 10 :=
  (toDigit?_eq_some (toDigit?_of_isDigitC h)).1

lemma charOfDigit_digitVal {c : Char} (h : isDigitC c = true) :
    charOfDigit (digitVal c) = c :=
  (toDigit?_eq_some (toDigit?_of_isDigitC h)).2

lemma digitVal_pos {c : Char} (h : isDigitC c = true) (hne : c ≠ '0') :
    1 ≤ digitVal c := by
  rcases Nat.eq_zero_or_pos (digitVal c) with h0 | h1
  · have hc := charOfDigit_digitVal h
    rw [h0] at hc
    exact absurd hc.symm hne
  · exact h1

lemma natToCharsAux_irrel :
    ∀ (f g n : Nat), n < f → n < g → natToCharsAux f n = natToCharsAux g n := by
  intro f
  induction f with
  | zero => intro g n h; exact absurd h (Nat.not_lt_zero n)
  | succ f ih =>
    intro g n hf hg
    cases g with
    | zero => exact absurd hg (Nat.not_lt_zero n)
    | succ g =>
      unfold natToCharsAux
      by_cases h10 : n < 10
      · rw [if_pos h10, if_pos h10]
      · rw [if_neg h10, if_neg h10]
        have hd : n / 10 < n := Nat.div_lt_self (by omega) (by omega)
        rw [ih g (n / 10) (by omega) (by omega)]

lemma natToChars_lt {n : Nat} (h : n < 10) : natToChars n = [charOfDigit n] := by
  unfold natToChars natToCharsAux
  rw [if_pos h]

lemma natToChars_ge {n : Nat} (h : 10 ≤ n) :
    natToChars n = natToChars (n / 10) ++ [charOfDigit (n % 10)] := by
  show natToCharsAux (n + 1) n = natToCharsAux (n / 10 + 1) (n / 10)
    ++ [charOfDigit (n % 10)]
  rw [show natToCharsAux (n + 1) n
    = if n < 10 then [charOfDigit n]
      else natToCharsAux n (n / 10) ++ [charOfDigit (n % 10)] from rfl]
  rw [if_neg (by omega)]
  have hd : n / 10 < n := Nat.div_lt_self (by omega) (by omega)
  rw [natToCharsAux_irrel n (n / 10 + 1) (n / 10) (by omega) (by omega)]

lemma charsVal_append_singleton (ds : List Char) (d : Char) :
    charsVal (ds ++ [d]) = 10 * charsVal ds + digitVal d := by
  unfold charsVal
  rw [List.foldl_append]
  rfl

lemma foldl_valStep_ge (tl : List Char) :
    ∀ a, 1 ≤ a → 1 ≤ tl.foldl valStep a := by
  induction tl with
  | nil => intro a h; exact h
  | cons c tl ih =>
    intro a h
    exact ih _ (by unfold valStep; omega)

lemma charsVal_pos {ds : List Char} (hne : ds ≠ [])
    (hd : ∀ c ∈ ds, isDigitC c = true) (h0 : ds.head? ≠ some '0') :
    1 ≤ charsVal ds := by
  cases ds with
  | nil => exact absurd rfl hne
  | cons e tl =>
    have he : isDigitC e = true := hd e (List.mem_cons_self e tl)
    have hne0 : e ≠ '0' := fun hx => h0 (by rw [hx]; rfl)
    have h1 : 1 ≤ digitVal e := digitVal_pos he hne0
    show 1 ≤ tl.foldl valStep (valStep 0 e)
    have hv : valStep 0 e = digitVal e := by unfold valStep; omega
    rw [hv]
    exact foldl_valStep_ge tl _ h1

/-- Uniqueness of the decimal representation: a nonempty list of digit
characters without a leading zero is the decimal rendering of its own
value. -/
lemma natToChars_charsVal :
    ∀ ds : List Char, (∀ c ∈ ds, isDigitC c = true) → ds ≠ [] →
      (ds.head? = some '0' → ds.length = 1) →
      natToChars (charsVal ds) = ds := by
  intro ds
  induction ds using List.reverseRecOn with
  | nil => intro _ hne _; exact absurd rfl hne
  | append_singleton ds d ih =>
    intro hdig _ hzero
    have hd_dig : isDigitC d = true :=
      hdig d (List.mem_append_right ds (List.mem_singleton_self d))
    by_cases hds : ds = []
    · subst hds
      have hv : charsVal [d] = digitVal d := by
        unfold charsVal valStep
        simp
      show natToChars (charsVal [d]) = [d]
      rw [hv, natToChars_lt (digitVal_lt_ten hd_dig),
        charOfDigit_digitVal hd_dig]
    · have hhead : ds.head? ≠ some '0' := by
        intro hx
        have hx2 : (ds ++ [d]).head? = some '0' := by
          cases ds with
          | nil => exact absurd rfl hds
          | cons e tl => simpa using hx
        have := hzero hx2
        have hlen : (ds ++ [d]).length = ds.length + 1 := by simp
        rw [hlen] at this
        have : ds.length = 0 := by omega
        exact hds (List.eq_nil_of_length_eq_zero this)
      have hdigs : ∀ c ∈ ds, isDigitC c = true := fun c hc =>
        hdig c (List.mem_append_left [d] hc)
      have hpos : 1 ≤ charsVal ds := charsVal_pos hds hdigs hhead
      have hdv : digitVal d < 10 := digitVal_lt_ten hd_dig
      rw [charsVal_append_singleton ds d, natToChars_ge (by omega)]
      have hdiv : (10 * charsVal ds + digitVal d) / 10 = charsVal ds := by
        omega
      have hmod : (10 * charsVal ds + digitVal d) % 10 = digitVal d := by
        omega
      rw [hdiv, hmod, charOfDigit_digitVal hd_dig,
        ih hdigs hds (fun hx => absurd hx hhead)]

/-- A successful numeric-identifier scan consumed exactly the decimal
rendering of its value. -/
lemma numericIdentifier_eq_some {s : List Char} {n : Nat} {rest : List Char}
    (h : numericIdentifier s = some (n, rest)) :
    s = natToChars n ++ rest := by
  simp only [numericIdentifier] at h
  split_ifs at h with h1 h2 h3
  obtain ⟨hn, hrest⟩ : charsVal (s.takeWhile isDigitC) = n ∧
      s.dropWhile isDigitC = rest := by
    simpa using h
  have hdigs : ∀ c ∈ s.takeWhile isDigitC, isDigitC c = true := fun c hc =>
    List.mem_takeWhile_imp hc
  have hzero : (s.takeWhile isDigitC).head? = some '0' →
      (s.takeWhile isDigitC).length = 1 := by
    intro hx
    rcases Nat.lt_or_ge 1 (s.takeWhile isDigitC).length with hlt | hle
    · exact absurd ⟨hx, hlt⟩ h2
    · have : (s.takeWhile isDigitC).length ≠ 0 := by
        intro hz
        exact h1 (List.eq_nil_of_length_eq_zero hz)
      omega
  rw [← hn, ← hrest,
    natToChars_charsVal (s.takeWhile isDigitC) hdigs h1 hzero,
    List.takeWhile_append_dropWhile]

/-- A successful pre-release scan consumed exactly the returned
characters, and consumed at least one. -/
lemma preIdents_eq_some :
    ∀ fuel s ids rest, preIdents fuel s = some (ids, rest) →
      s = ids ++ rest ∧ ids ≠ [] := by
  intro fuel
  induction fuel with
  | zero => intro s ids rest h; exact Option.noConfusion h
  | succ fuel ih =>
    intro s ids rest h
    simp only [preIdents] at h
    split_ifs at h with h1 h2
    split at h
    · rename_i heq
      obtain ⟨hi, hr⟩ : s.takeWhile isIdentChar = ids ∧
          ([] : List Char) = rest := by simpa using h
      refine ⟨?_, ?_⟩
      · rw [← hi, ← hr, List.append_nil]
        conv_lhs => rw [← List.takeWhile_append_dropWhile (p := isIdentChar)
          (l := s)]
        rw [heq, List.append_nil]
      · rw [← hi]; exact h1
    · rename_i ch rest2 heq
      split_ifs at h with hdot
      · subst hdot
        split at h
        · rename_i ids2 rest3 hrec
          obtain ⟨hi, hr⟩ : s.takeWhile isIdentChar ++ '.' :: ids2 = ids ∧
              rest3 = rest := by simpa using h
          obtain ⟨hs2, _⟩ := ih rest2 ids2 rest3 hrec
          refine ⟨?_, ?_⟩
          · rw [← hi, ← hr]
            conv_lhs => rw [← List.takeWhile_append_dropWhile
              (p := isIdentChar) (l := s)]
            rw [heq, hs2]
            simp
          · rw [← hi]
            intro hx
            exact h1 (List.append_eq_nil.mp hx).1
        · exact Option.noConfusion h
      · obtain ⟨hi, hr⟩ : s.takeWhile isIdentChar = ids ∧
            ch :: rest2 = rest := by simpa using h
        refine ⟨?_, ?_⟩
        · rw [← hi, ← hr, ← heq, List.takeWhile_append_dropWhile]
        · rw [← hi]; exact h1

/-- A successful build-metadata scan consumed exactly the returned
characters, and consumed at least one. -/
lemma buildIdents_eq_some :
    ∀ fuel s ids rest, buildIdents fuel s = some (ids, rest) →
      s = ids ++ rest ∧ ids ≠ [] := by
  intro fuel
  induction fuel with
  | zero => intro s ids rest h; exact Option.noConfusion h
  | succ fuel ih =>
    intro s ids rest h
    simp only [buildIdents] at h
    split_ifs at h with h1
    split at h
    · rename_i heq
      obtain ⟨hi, hr⟩ : s.takeWhile isIdentChar = ids ∧
          ([] : List Char) = rest := by simpa using h
      refine ⟨?_, ?_⟩
      · rw [← hi, ← hr, List.append_nil]
        conv_lhs => rw [← List.takeWhile_append_dropWhile (p := isIdentChar)
          (l := s)]
        rw [heq, List.append_nil]
      · rw [← hi]; exact h1
    · rename_i ch rest2 heq
      split_ifs at h with hdot
      · subst hdot
        split at h
        · rename_i ids2 rest3 hrec
          obtain ⟨hi, hr⟩ : s.takeWhile isIdentChar ++ '.' :: ids2 = ids ∧
              rest3 = rest := by simpa using h
          obtain ⟨hs2, _⟩ := ih rest2 ids2 rest3 hrec
          refine ⟨?_, ?_⟩
          · rw [← hi, ← hr]
            conv_lhs => rw [← List.takeWhile_append_dropWhile
              (p := isIdentChar) (l := s)]
            rw [heq, hs2]
            simp
          · rw [← hi]
            intro hx
            exact h1 (List.append_eq_nil.mp hx).1
        · exact Option.noConfusion h
      · obtain ⟨hi, hr⟩ : s.takeWhile isIdentChar = ids ∧
            ch :: rest2 = rest := by simpa using h
        refine ⟨?_, ?_⟩
        · rw [← hi, ← hr, ← heq, List.takeWhile_append_dropWhile]
        · rw [← hi]; exact h1

lemma asString_ne_empty {l : List Char} (h : l ≠ []) : l.asString ≠ "" := by
  intro hx
  exact h (congrArg String.data hx)

lemma parseBuild_eq_some {a b c : Nat} {preStr : String} {r : List Char}
    {v : Version} (h : parseBuild a b c preStr r = some v) :
    v.major = a ∧ v.minor = b ∧ v.patch = c ∧ v.pre = preStr ∧
      v.build ≠ "" ∧ r = v.build.data := by
  unfold parseBuild at h
  split at h
  · exact Option.noConfusion h
  · rename_i build r2 hb
    split_ifs at h with h2
    obtain rfl : v = ⟨a, b, c, preStr, build.asString⟩ :=
      (Option.some.inj h).symm
    obtain ⟨hs, hne⟩ := buildIdents_eq_some (r.length + 1) r build r2 hb
    subst h2
    refine ⟨rfl, rfl, rfl, rfl, asString_ne_empty hne, ?_⟩
    rw [hs]
    simp [List.asString]

lemma parseTail_eq_some {a b c : Nat} {r : List Char} {v : Version}
    (h : parseTail a b c r = some v) :
    v.major = a ∧ v.minor = b ∧ v.patch = c ∧
      r = (if v.pre = "" then [] else '-' :: v.pre.data)
        ++ (if v.build = "" then [] else '+' :: v.build.data) := by
  unfold parseTail at h
  split at h
  · obtain rfl : v = ⟨a, b, c, "", ""⟩ := (Option.some.inj h).symm
    exact ⟨rfl, rfl, rfl, rfl⟩
  · rename_i ch r2
    split_ifs at h with hdash hplus
    · subst hdash
      split at h
      · exact Option.noConfusion h
      · rename_i pre r3 hp
        obtain ⟨hs, hne⟩ := preIdents_eq_some (r2.length + 1) r2 pre r3 hp
        split at h
        · obtain rfl : v = ⟨a, b, c, pre.asString, ""⟩ :=
            (Option.some.inj h).symm
          refine ⟨rfl, rfl, rfl, ?_⟩
          show '-' :: r2 =
            (if pre.asString = "" then [] else '-' :: pre.asString.data)
              ++ (if ("" : String) = "" then []
                else '+' :: ("" : String).data)
          rw [if_neg (asString_ne_empty hne), if_pos rfl, List.append_nil]
          show '-' :: r2 = '-' :: pre
          rw [hs, List.append_nil]
        · rename_i ch2 r4
          split_ifs at h with hplus2
          subst hplus2
          obtain ⟨hma, hmi, hpa, hpre, hbne, hr4⟩ := parseBuild_eq_some h
          refine ⟨hma, hmi, hpa, ?_⟩
          rw [hpre, if_neg (asString_ne_empty hne), if_neg hbne]
          show '-' :: r2 = ('-' :: pre) ++ '+' :: v.build.data
          rw [hs, ← hr4]
          simp
    · subst hplus
      obtain ⟨hma, hmi, hpa, hpre, hbne, hr2⟩ := parseBuild_eq_some h
      refine ⟨hma, hmi, hpa, ?_⟩
      rw [if_pos hpre, if_neg hbne, ← hr2]
      rfl

/-- Canonicality: a successful parse means the input was exactly the
rendering of the parsed version. -/
lemma parseVersionChars_renderChars {s : List Char} {v : Version}
    (h : parseVersionChars s = some v) : s = v.renderChars := by
  unfold parseVersionChars at h
  split_ifs at h with h0
  split at h
  · exact Option.noConfusion h
  · rename_i major r1 hmaj
    split at h
    · exact Option.noConfusion h
    · rename_i ch r2
      split_ifs at h with hdot1
      subst hdot1
      split at h
      · exact Option.noConfusion h
      · rename_i minor r3 hmin
        split at h
        · exact Option.noConfusion h
        · rename_i ch2 r4
          split_ifs at h with hdot2
          subst hdot2
          split at h
          · exact Option.noConfusion h
          · rename_i patch r5 hpat
            obtain ⟨hma, hmi, hpa, hr5⟩ := parseTail_eq_some h
            subst hma hmi hpa
            rw [numericIdentifier_eq_some hmaj,
              numericIdentifier_eq_some hmin,
              numericIdentifier_eq_some hpat, hr5]
            unfold Version.renderChars
            simp

/-- Canonicality at the `String` level: the rendering of a parsed
version is the very string it was parsed from. -/
lemma version_render_of_parse {s : String} {v : Version}
    (h : Version.parse s = some v) : Version.render v = s := by
  have hc : s.data = v.renderChars := parseVersionChars_renderChars h
  show v.renderChars.asString = s
  rw [← hc]
  cases s
  rfl

/-- Parsing a rendered parse result gives it back: the serde round-trip
of `semver::Version` (serialize via `Display`, deserialize via
`FromStr`). -/
lemma version_parse_render {s : String} {v : Version}
    (h : Version.parse s = some v) :
    Version.parse (Version.render v) = some v := by
  rw [version_render_of_parse h]
  exact h

/-- The OS-descriptor serialization round-trips. -/
lemma osinfo_roundtrip (o : OsInfo) :
    OsInfo.deserialize (OsInfo.serialize o) = some o := by
  cases o
  rfl

/-- Inversion of a successful `Info::new`: both version texts parsed and
the result is the corresponding record. -/
lemma info_new_ok_inv {raw : RawInfo} {os : OsInfo} {i : Info}
    (h : Info.new raw os = .ok i) :
    ∃ v1 v2, Version.parse raw.cargo_pkg_version = some v1 ∧
      Version.parse raw.rustc_version = some v2 ∧
      i = ⟨v1, raw.git_version, v2, os, raw.target, raw.profile⟩ := by
  unfold Info.new Info.newInstrumented at h
  cases hc : Version.parse raw.cargo_pkg_version with
  | none =>
    rw [hc] at h
    exact Except.noConfusion h
  | some v1 =>
    rw [hc] at h
    cases hr : Version.parse raw.rustc_version with
    | none =>
      rw [hr] at h
      exact Except.noConfusion h
    | some v2 =>
      rw [hr] at h
      exact ⟨v1, v2, rfl, rfl, (Except.ok.inj h).symm⟩

/-- Computation rule for `Info.deserialize` on a record of the expected
shape. -/
lemma info_deserialize_fields (c g r : String) (osv : JValue) (t p : String) :
    Info.deserialize (JValue.obj
      [("cargo_pkg_version", .str c), ("git_version", .str g),
       ("rustc_version", .str r), ("os", osv),
       ("target", .str t), ("profile", .str p)]) =
      (match Version.parse c, Version.parse r, OsInfo.deserialize osv with
       | some v1, some v2, some os => some ⟨v1, g, v2, os, t, p⟩
       | _, _, _ => none) := rfl

/-- C6: serializing a validated `Info` to the structured interchange
format and deserializing the result yields a value equal, field by
field, to the original. -/
theorem info_serde_roundtrip (raw : RawInfo) (os : OsInfo) (i : Info)
    (h : Info.new raw os = .ok i) :
    Info.deserialize (Info.serialize i) = some i := by
  obtain ⟨v1, v2, hv1, hv2, rfl⟩ := info_new_ok_inv h
  show Info.deserialize (JValue.obj
    [("cargo_pkg_version", .str v1.render),
     ("git_version", .str raw.git_version),
     ("rustc_version", .str v2.render),
     ("os", OsInfo.serialize os),
     ("target", .str raw.target),
     ("profile", .str raw.profile)]) =
    some ⟨v1, raw.git_version, v2, os, raw.target, raw.profile⟩
  rw [info_deserialize_fields, version_parse_render hv1,
    version_parse_render hv2, osinfo_roundtrip os]

theorem info_serde_roundtrip_witness :
    Info.new ⟨"1.2.3-alpha.1+b7", "abcd123", "1.80.0", "t64", "release"⟩
        ⟨"Ubuntu", "linux", "24.04", "64-bit"⟩ =
      .ok ⟨⟨1, 2, 3, "alpha.1", "b7"⟩, "abcd123", ⟨1, 80, 0, "", ""⟩,
           ⟨"Ubuntu", "linux", "24.04", "64-bit"⟩, "t64", "release"⟩ ∧
    Info.deserialize (Info.serialize
      ⟨⟨1, 2, 3, "alpha.1", "b7"⟩, "abcd123", ⟨1, 80, 0, "", ""⟩,
       ⟨"Ubuntu", "linux", "24.04", "64-bit"⟩, "t64", "release"⟩) =
      some ⟨⟨1, 2, 3, "alpha.1", "b7"⟩, "abcd123", ⟨1, 80, 0, "", ""⟩,
            ⟨"Ubuntu", "linux", "24.04", "64-bit"⟩, "t64", "release"⟩ :=
  ⟨rfl,
   info_serde_roundtrip
     ⟨"1.2.3-alpha.1+b7", "abcd123", "1.80.0", "t64", "release"⟩
     ⟨"Ubuntu", "linux", "24.04", "64-bit"⟩
     ⟨⟨1, 2, 3, "alpha.1", "b7"⟩, "abcd123", ⟨1, 80, 0, "", ""⟩,
      ⟨"Ubuntu", "linux", "24.04", "64-bit"⟩, "t64", "release"⟩
     rfl⟩

/-! ## Sanity checks of the semver embedding -/

example : Version.parse "1.2.3" = some ⟨1, 2, 3, "", ""⟩ := by decide
example : Version.parse "1.80.0" = some ⟨1, 80, 0, "", ""⟩ := by decide
example : Version.parse "1.2" = none := by decide
example : Version.parse "" = none := by decide
example : Version.parse "abc" = none := by decide
example : Version.parse "1.2.3-alpha.1+build.05" =
    some ⟨1, 2, 3, "alpha.1", "build.05"⟩ := by decide
example : Version.parse "1.2.3-01" = none := by decide
example : Version.parse "01.2.3" = none := by decide
example : Version.render ⟨1, 2, 3, "alpha.1", "b7"⟩ = "1.2.3-alpha.1+b7" := by
  decide

end InfoCrate
